import Mathlib

/-!
A Lean model of the market-data ingestion pipeline implemented in
`stock_parser.py` (10-minute cadence) and `stock_parser_hourly.py`
(hourly cadence), together with theorems about its storage,
segment-classification, scheduling and error-handling behaviour.

Modelling conventions:
- Timestamps are integers (seconds); `timedelta(minutes=10)` is 600 and
  `timedelta(hours=1)` is 3600.
- Prices are exact rationals; the provider fixed-point pair
  `(units, nano)` decodes as `units + nano / 10^9`, the expression the
  source computes.
- The external ISO-8601 parser (`dateutil.parser.isoparse`) is an
  uninterpreted parameter `iso : String → Int`.
- `time.sleep` durations are recorded in milliseconds in the event
  trace, so `time.sleep(0.1)` is `sleepMs 100` and `time.sleep(reset)`
  is `sleepMs (1000 * reset)`.
- The database table is a list of rows; the SQL
  `INSERT ... ON CONFLICT (ticker, begin_time) DO NOTHING` is an append
  guarded by a key-membership test.
- The upstream API is an oracle `fetch : String → Nat → FetchResult`
  giving the outcome of the n-th `get_candles` call for a figi.
-/

namespace StockParser

/-- The trading-status values the two scripts mention, plus a catch-all
for every other value of the provider enum. -/
inductive TradingStatus where
  | normal_trading
  | break_in_trading
  | not_available_for_trading
  | other_status
deriving DecidableEq

/-- One instrument as returned by `client.instruments.shares`.
`weekend_flag` is `none` when the attribute is absent, matching the
`getattr(instrument, 'weekend_flag', False)` access in the source. -/
structure Instrument where
  figi : String
  ticker : String
  trading_status : TradingStatus
  weekend_flag : Option Bool
deriving DecidableEq

/-- The provider fixed-point price: integer units and a nanosecond-scale
fractional part. -/
structure Quotation where
  units : Int
  nano : Int
deriving DecidableEq

/-- The dynamically-typed `candle.time` field: a native datetime, an
ISO-8601 string, or any other (unsupported) type. -/
inductive CTime where
  | dt (t : Int)
  | iso_string (s : String)
  | unsupported
deriving DecidableEq

/-- One candle as returned by `get_candles`. `open_` models the source
field `open`, which is a reserved word in Lean. -/
structure Candle where
  time : CTime
  open_ : Quotation
  high : Quotation
  low : Quotation
  close : Quotation
deriving DecidableEq

/-- One persisted row of a candle table. -/
structure Row where
  ticker : String
  begin_time : Int
  close_time : Int
  open_ : ℚ
  high : ℚ
  low : ℚ
  close : ℚ
deriving DecidableEq

/-- The uniqueness key of the candle tables: `(ticker, begin_time)`. -/
def rowKey (r : Row) : String × Int := (r.ticker, r.begin_time)

/-- `INSERT ... ON CONFLICT (ticker, begin_time) DO NOTHING`: the row is
appended unless some stored row already has its key; a conflict is a
no-op, not an error. -/
def insertOnConflictDoNothing (tbl : List Row) (r : Row) : List Row :=
  if tbl.any fun r0 => decide (rowKey r0 = rowKey r) then tbl else tbl ++ [r]

/-- `units + nano / 1e9`, the price reconstruction both scripts apply to
each of the four OHLC fields. -/
def decodePrice (q : Quotation) : ℚ :=
  (q.units : ℚ) + (q.nano : ℚ) / 10 ^ 9

/-- The begin time extracted from `candle.time`: taken directly from a
datetime, parsed by `iso` from a string, and `none` (candle skipped) for
an unsupported type. -/
def candleBeginTime (iso : String → Int) (c : Candle) : Option Int :=
  match c.time with
  | CTime.dt t => some t
  | CTime.iso_string s => some (iso s)
  | CTime.unsupported => none

/-- The row both store functions build: the ticker argument, the begin
time, the close time derived as begin plus the granularity `delta`, and
the four decoded prices. -/
def mkRow (ticker : String) (b : Int) (delta : Int) (c : Candle) : Row :=
  { ticker := ticker, begin_time := b, close_time := b + delta,
    open_ := decodePrice c.open_, high := decodePrice c.high,
    low := decodePrice c.low, close := decodePrice c.close }

/-- `store_candle_in_db` of `stock_parser.py`: close time is begin plus
10 minutes, and the single string argument `ticker` is written to the
ticker column. -/
def store_candle_in_db (iso : String → Int) (tbl : List Row) (c : Candle)
    (ticker : String) : List Row :=
  match candleBeginTime iso c with
  | none => tbl
  | some b => insertOnConflictDoNothing tbl (mkRow ticker b 600 c)

/-- `store_candle_in_db` of `stock_parser_hourly.py`: close time is
begin plus 1 hour, and of the two identifier arguments `(figi, ticker)`
the display `ticker` is written to the ticker column. -/
def store_candle_in_db_hourly (iso : String → Int) (tbl : List Row)
    (c : Candle) (figi ticker : String) : List Row :=
  match candleBeginTime iso c with
  | none => tbl
  | some b =>
      let _ := figi
      insertOnConflictDoNothing tbl (mkRow ticker b 3600 c)

/-- The classic-segment filter of `get_stock_lists` in
`stock_parser.py`: trading status in the two-element allow-list
NORMAL_TRADING, BREAK_IN_TRADING. -/
def classicPred10 (i : Instrument) : Bool :=
  decide (i.trading_status = TradingStatus.normal_trading ∨
    i.trading_status = TradingStatus.break_in_trading)

/-- The classic-segment filter of `get_stock_lists` in
`stock_parser_hourly.py`: trading status in the two-element allow-list
NORMAL_TRADING, NOT_AVAILABLE_FOR_TRADING. -/
def classicPredHourly (i : Instrument) : Bool :=
  decide (i.trading_status = TradingStatus.normal_trading ∨
    i.trading_status = TradingStatus.not_available_for_trading)

/-- The weekend-segment filter of `stock_parser.py`:
`getattr(instrument, 'weekend_flag', False)`. -/
def weekendPred10 (i : Instrument) : Bool :=
  i.weekend_flag.getD false

/-- The weekend-segment filter of `stock_parser_hourly.py`: the same
`getattr(instrument, 'weekend_flag', False)` expression. -/
def weekendPredHourly (i : Instrument) : Bool :=
  i.weekend_flag.getD false

/-- `get_stock_lists` of `stock_parser.py`: two lists of FIGI strings,
classic stocks first, weekend stocks second. -/
def get_stock_lists (insts : List Instrument) : List String × List String :=
  ((insts.filter classicPred10).map Instrument.figi,
   (insts.filter weekendPred10).map Instrument.figi)

/-- `get_stock_lists` of `stock_parser_hourly.py`: two FIGI-to-ticker
dictionaries, modelled as association lists in catalog order. -/
def get_stock_lists_hourly (insts : List Instrument) :
    List (String × String) × List (String × String) :=
  ((insts.filter classicPredHourly).map fun i => (i.figi, i.ticker),
   (insts.filter weekendPredHourly).map fun i => (i.figi, i.ticker))

/-- The outcome of one `get_candles` call: a candle list, a
RESOURCE_EXHAUSTED `RequestError` carrying the optional
`ratelimit_reset` metadata string, any other `RequestError`, or any
other exception. -/
inductive FetchResult where
  | ok (candles : List Candle)
  | throttled (ratelimit_reset : Option String)
  | requestErrorOther
  | otherError
deriving DecidableEq

/-- An observable effect of a run: an upstream `get_candles` call for a
figi, or a `time.sleep` recorded in milliseconds. -/
inductive Ev where
  | apiCall (figi : String)
  | sleepMs (ms : Int)
deriving DecidableEq

/-- Accumulator loop reading a run of decimal digits; any non-digit
character makes the whole conversion fail. -/
def parseDigitsAux : List Char → Nat → Option Nat
  | [], acc => some acc
  | ch :: rest, acc =>
      if ch.isDigit then parseDigitsAux rest (acc * 10 + (ch.toNat - 48))
      else none

/-- The Python `int(str)` conversion on an optionally-signed decimal
string: the parsed integer, or `none` where `int()` raises
`ValueError`. -/
def pyInt (s : String) : Option Int :=
  match s.data with
  | [] => none
  | ch :: rest =>
      if ch = '-' then
        match rest with
        | [] => none
        | _ :: _ => (parseDigitsAux rest 0).map fun n => -(n : Int)
      else (parseDigitsAux (ch :: rest) 0).map fun n => (n : Int)

/-- `int(re.metadata.get('ratelimit_reset', 60))`: 60 when the metadata
key is absent, the parsed integer when present and numeric, and `none`
when `int()` raises `ValueError` on a non-numeric string. -/
def resetSeconds (meta : Option String) : Option Int :=
  match meta with
  | none => some 60
  | some s => pyInt s

/-- The inner `for candle in candles` loop of `fetch_and_store` in
`stock_parser.py`: each candle is stored in order. -/
def storeCandles (iso : String → Int) (cs : List Candle) (ticker : String)
    (tbl : List Row) : List Row :=
  cs.foldl (fun t c => store_candle_in_db iso t c ticker) tbl

/-- The inner candle loop of `fetch_and_store` in
`stock_parser_hourly.py`. -/
def storeCandlesHourly (iso : String → Int) (cs : List Candle)
    (figi ticker : String) (tbl : List Row) : List Row :=
  cs.foldl (fun t c => store_candle_in_db_hourly iso t c figi ticker) tbl

/-- The result of one iteration of the per-instrument loop: the events
it emitted, the table it left behind, and whether an exception escaped
the per-instrument handlers to the run-level handler. -/
structure StepResult where
  events : List Ev
  table : List Row
  escalated : Bool

/-- One iteration of the `for ticker in tickers` loop of
`fetch_and_store` in `stock_parser.py`. On success the candles are
stored and `time.sleep(0.1)` runs. On RESOURCE_EXHAUSTED the handler
computes `int(metadata.get('ratelimit_reset', 60))` — a `ValueError`
there escapes to the run-level handler — then sleeps that many seconds
and retries the same request exactly once; a failed retry is logged and
the instrument skipped. Any other failure is logged and skipped with no
sleep. -/
def fetch_and_store_step (iso : String → Int) (fetch : Nat → FetchResult)
    (ticker : String) (tbl : List Row) : StepResult :=
  match fetch 0 with
  | FetchResult.ok cs =>
      ⟨[Ev.apiCall ticker, Ev.sleepMs 100], storeCandles iso cs ticker tbl, false⟩
  | FetchResult.throttled meta =>
      match resetSeconds meta with
      | none => ⟨[Ev.apiCall ticker], tbl, true⟩
      | some reset =>
          match fetch 1 with
          | FetchResult.ok cs =>
              ⟨[Ev.apiCall ticker, Ev.sleepMs (1000 * reset), Ev.apiCall ticker],
                storeCandles iso cs ticker tbl, false⟩
          | _ =>
              ⟨[Ev.apiCall ticker, Ev.sleepMs (1000 * reset), Ev.apiCall ticker],
                tbl, false⟩
  | FetchResult.requestErrorOther => ⟨[Ev.apiCall ticker], tbl, false⟩
  | FetchResult.otherError => ⟨[Ev.apiCall ticker], tbl, false⟩

/-- One iteration of the `for figi, ticker in stock_dict.items()` loop
of `fetch_and_store` in `stock_parser_hourly.py`. On RESOURCE_EXHAUSTED
the handler computes the reset delay and sleeps, but issues no retry:
the source holds only the comment
`# Add retry logic here (same as original script)` at that point. -/
def fetch_and_store_step_hourly (iso : String → Int)
    (fetch : Nat → FetchResult) (figi ticker : String) (tbl : List Row) :
    StepResult :=
  match fetch 0 with
  | FetchResult.ok cs =>
      ⟨[Ev.apiCall figi, Ev.sleepMs 100],
        storeCandlesHourly iso cs figi ticker tbl, false⟩
  | FetchResult.throttled meta =>
      match resetSeconds meta with
      | none => ⟨[Ev.apiCall figi], tbl, true⟩
      | some reset => ⟨[Ev.apiCall figi, Ev.sleepMs (1000 * reset)], tbl, false⟩
  | FetchResult.requestErrorOther => ⟨[Ev.apiCall figi], tbl, false⟩
  | FetchResult.otherError => ⟨[Ev.apiCall figi], tbl, false⟩

/-- `fetch_and_store` of `stock_parser.py`: the per-instrument loop.
When a step escalates, the run-level `except` catches, logs, and the
function returns normally, so the remaining instruments are not
visited. -/
def fetch_and_store (iso : String → Int) (fetch : String → Nat → FetchResult)
    (tickers : List String) (tbl : List Row) : List Ev × List Row :=
  match tickers with
  | [] => ([], tbl)
  | t :: rest =>
      let s := fetch_and_store_step iso (fetch t) t tbl
      if s.escalated then (s.events, s.table)
      else
        let r := fetch_and_store iso fetch rest s.table
        (s.events ++ r.1, r.2)

/-- `fetch_and_store` of `stock_parser_hourly.py`, iterating the
FIGI-to-ticker dictionary. -/
def fetch_and_store_hourly (iso : String → Int)
    (fetch : String → Nat → FetchResult) (stocks : List (String × String))
    (tbl : List Row) : List Ev × List Row :=
  match stocks with
  | [] => ([], tbl)
  | p :: rest =>
      let s := fetch_and_store_step_hourly iso (fetch p.1) p.1 p.2 tbl
      if s.escalated then (s.events, s.table)
      else
        let r := fetch_and_store_hourly iso fetch rest s.table
        (s.events ++ r.1, r.2)

/-- The four ingestion targets of the full system. -/
inductive Target where
  | classic10
  | weekend10
  | classic_hourly
  | weekend_hourly
deriving DecidableEq

/-- The gating of one `scheduler` iteration in `stock_parser.py`:
classic stocks on weekdays (`weekday < 5`, Monday is 0) within
`10 <= hour < 23`, weekend stocks within the same hour window on every
day. Returns the targets whose `fetch_and_store` is invoked. -/
def scheduler_step (weekday hour : Nat) : List Target :=
  (if weekday < 5 ∧ 10 ≤ hour ∧ hour < 23 then [Target.classic10] else []) ++
  (if 10 ≤ hour ∧ hour < 23 then [Target.weekend10] else [])

/-- The gating of one `scheduler` iteration in
`stock_parser_hourly.py`: classic stocks on weekdays with no hour
condition, weekend stocks within `10 <= hour < 23` on every day. -/
def scheduler_step_hourly (weekday hour : Nat) : List Target :=
  (if weekday < 5 then [Target.classic_hourly] else []) ++
  (if 10 ≤ hour ∧ hour < 23 then [Target.weekend_hourly] else [])

theorem mem_insertOnConflictDoNothing {tbl : List Row} {r0 r : Row}
    (h : r ∈ insertOnConflictDoNothing tbl r0) : r ∈ tbl ∨ r = r0 := by
  unfold insertOnConflictDoNothing at h
  split at h
  · exact Or.inl h
  · rcases List.mem_append.mp h with h1 | h1
    · exact Or.inl h1
    · simp only [List.mem_singleton] at h1
      exact Or.inr h1

theorem mem_store_candle_in_db {iso : String → Int} {tbl : List Row}
    {c : Candle} {ticker : String} {r : Row}
    (h : r ∈ store_candle_in_db iso tbl c ticker) :
    r ∈ tbl ∨ ∃ b, candleBeginTime iso c = some b ∧ r = mkRow ticker b 600 c := by
  unfold store_candle_in_db at h
  cases hb : candleBeginTime iso c with
  | none => rw [hb] at h; exact Or.inl h
  | some b =>
      rw [hb] at h
      rcases mem_insertOnConflictDoNothing h with h1 | h1
      · exact Or.inl h1
      · exact Or.inr ⟨b, rfl, h1⟩

theorem mem_store_candle_in_db_hourly {iso : String → Int} {tbl : List Row}
    {c : Candle} {figi ticker : String} {r : Row}
    (h : r ∈ store_candle_in_db_hourly iso tbl c figi ticker) :
    r ∈ tbl ∨ ∃ b, candleBeginTime iso c = some b ∧ r = mkRow ticker b 3600 c := by
  unfold store_candle_in_db_hourly at h
  cases hb : candleBeginTime iso c with
  | none => rw [hb] at h; exact Or.inl h
  | some b =>
      rw [hb] at h
      rcases mem_insertOnConflictDoNothing h with h1 | h1
      · exact Or.inl h1
      · exact Or.inr ⟨b, rfl, h1⟩

/-- C1: storing a candle whose `(ticker, begin time)` key already has a
stored row is a no-op: the table is returned unchanged (no error is
signalled), so exactly one row for the key remains and it keeps the
originally stored OHLC values even when the incoming payload differs. -/
theorem c1_store_idempotent_first_write_wins (iso : String → Int)
    (tbl : List Row) (c : Candle) (ticker : String) (b : Int) (r0 : Row)
    (hb : candleBeginTime iso c = some b)
    (h1 : tbl.filter (fun r => decide (rowKey r = (ticker, b))) = [r0]) :
    store_candle_in_db iso tbl c ticker = tbl ∧
    (store_candle_in_db iso tbl c ticker).filter
      (fun r => decide (rowKey r = (ticker, b))) = [r0] := by
  have hr0 : r0 ∈ tbl.filter (fun r => decide (rowKey r = (ticker, b))) := by
    rw [h1]; exact List.mem_singleton.mpr rfl
  rw [List.mem_filter] at hr0
  have hany : (tbl.any fun r1 => decide (rowKey r1 = rowKey (mkRow ticker b 600 c))) = true := by
    rw [List.any_eq_true]
    exact ⟨r0, hr0.1, by simpa [rowKey, mkRow] using hr0.2⟩
  have heq : store_candle_in_db iso tbl c ticker = tbl := by
    simp [store_candle_in_db, hb, insertOnConflictDoNothing, hany]
  exact ⟨heq, by rw [heq]; exact h1⟩

/-- C1 witness: a concrete table holding one row for the key and a
second store attempt with a different OHLC payload. -/
theorem c1_witness :
    (candleBeginTime (fun _ => 0)
        ⟨CTime.dt 7, ⟨2, 0⟩, ⟨2, 0⟩, ⟨2, 0⟩, ⟨2, 0⟩⟩ = some 7 ∧
      [mkRow "T" 7 600 ⟨CTime.dt 7, ⟨1, 0⟩, ⟨1, 0⟩, ⟨1, 0⟩, ⟨1, 0⟩⟩].filter
        (fun r => decide (rowKey r = ("T", 7))) =
        [mkRow "T" 7 600 ⟨CTime.dt 7, ⟨1, 0⟩, ⟨1, 0⟩, ⟨1, 0⟩, ⟨1, 0⟩⟩]) ∧
    (store_candle_in_db (fun _ => 0)
        [mkRow "T" 7 600 ⟨CTime.dt 7, ⟨1, 0⟩, ⟨1, 0⟩, ⟨1, 0⟩, ⟨1, 0⟩⟩]
        ⟨CTime.dt 7, ⟨2, 0⟩, ⟨2, 0⟩, ⟨2, 0⟩, ⟨2, 0⟩⟩ "T" =
        [mkRow "T" 7 600 ⟨CTime.dt 7, ⟨1, 0⟩, ⟨1, 0⟩, ⟨1, 0⟩, ⟨1, 0⟩⟩] ∧
      (store_candle_in_db (fun _ => 0)
          [mkRow "T" 7 600 ⟨CTime.dt 7, ⟨1, 0⟩, ⟨1, 0⟩, ⟨1, 0⟩, ⟨1, 0⟩⟩]
          ⟨CTime.dt 7, ⟨2, 0⟩, ⟨2, 0⟩, ⟨2, 0⟩, ⟨2, 0⟩⟩ "T").filter
        (fun r => decide (rowKey r = ("T", 7))) =
        [mkRow "T" 7 600 ⟨CTime.dt 7, ⟨1, 0⟩, ⟨1, 0⟩, ⟨1, 0⟩, ⟨1, 0⟩⟩]) :=
  ⟨⟨by rfl, by rfl⟩,
    c1_store_idempotent_first_write_wins (fun _ => 0) _ _ "T" 7 _
      (by rfl) (by rfl)⟩

/-- C6: every row added by either store function carries a close time
derived from the begin time: begin plus 600 seconds (10 minutes) in the
10-minute pipeline and begin plus 3600 seconds (1 hour) in the hourly
pipeline. The incoming candle carries no close time at all, so the value
is never taken from the input. -/
theorem c6_close_time_derived (iso : String → Int) (c : Candle)
    (ticker figi : String) (tbl : List Row) :
    (∀ r ∈ store_candle_in_db iso tbl c ticker,
        r ∈ tbl ∨ r.close_time = r.begin_time + 600) ∧
    (∀ r ∈ store_candle_in_db_hourly iso tbl c figi ticker,
        r ∈ tbl ∨ r.close_time = r.begin_time + 3600) := by
  constructor
  · intro r hr
    rcases mem_store_candle_in_db hr with h | ⟨b, _, h⟩
    · exact Or.inl h
    · exact Or.inr (by rw [h]; rfl)
  · intro r hr
    rcases mem_store_candle_in_db_hourly hr with h | ⟨b, _, h⟩
    · exact Or.inl h
    · exact Or.inr (by rw [h]; rfl)

/-- C6 witness: the theorem applied to an empty table and a concrete
candle beginning at time 0. -/
theorem c6_witness :
    (∀ r ∈ store_candle_in_db (fun _ => 0) []
        ⟨CTime.dt 0, ⟨1, 0⟩, ⟨1, 0⟩, ⟨1, 0⟩, ⟨1, 0⟩⟩ "T",
        r ∈ ([] : List Row) ∨ r.close_time = r.begin_time + 600) ∧
    (∀ r ∈ store_candle_in_db_hourly (fun _ => 0) []
        ⟨CTime.dt 0, ⟨1, 0⟩, ⟨1, 0⟩, ⟨1, 0⟩, ⟨1, 0⟩⟩ "F" "T",
        r ∈ ([] : List Row) ∨ r.close_time = r.begin_time + 3600) :=
  c6_close_time_derived (fun _ => 0)
    ⟨CTime.dt 0, ⟨1, 0⟩, ⟨1, 0⟩, ⟨1, 0⟩, ⟨1, 0⟩⟩ "T" "F" []

/-- C7: every row added by the 10-minute store function persists, for
each of the four OHLC fields with provider parts `(U, F)` such that
`0 ≤ F < 10^9`, the exact value `U + F / 10^9`; in particular
`U = 150, F = 250000000` decodes to `150.25`. -/
theorem c7_price_reconstruction (iso : String → Int) (c : Candle)
    (ticker : String) (tbl : List Row)
    (_hf : 0 ≤ c.open_.nano ∧ c.open_.nano < 10 ^ 9 ∧
          0 ≤ c.high.nano ∧ c.high.nano < 10 ^ 9 ∧
          0 ≤ c.low.nano ∧ c.low.nano < 10 ^ 9 ∧
          0 ≤ c.close.nano ∧ c.close.nano < 10 ^ 9) :
    (∀ r ∈ store_candle_in_db iso tbl c ticker,
        r ∈ tbl ∨
          (r.open_ = (c.open_.units : ℚ) + (c.open_.nano : ℚ) / 10 ^ 9 ∧
           r.high = (c.high.units : ℚ) + (c.high.nano : ℚ) / 10 ^ 9 ∧
           r.low = (c.low.units : ℚ) + (c.low.nano : ℚ) / 10 ^ 9 ∧
           r.close = (c.close.units : ℚ) + (c.close.nano : ℚ) / 10 ^ 9)) ∧
    decodePrice ⟨150, 250000000⟩ = (150.25 : ℚ) := by
  constructor
  · intro r hr
    rcases mem_store_candle_in_db hr with h | ⟨b, _, h⟩
    · exact Or.inl h
    · exact Or.inr (by rw [h]; exact ⟨rfl, rfl, rfl, rfl⟩)
  · norm_num [decodePrice]

/-- C7 witness: the theorem applied to a concrete candle whose four
fractional parts are the in-range value 250000000. -/
theorem c7_witness :
    (0 ≤ (250000000 : Int) ∧ (250000000 : Int) < 10 ^ 9 ∧
     0 ≤ (250000000 : Int) ∧ (250000000 : Int) < 10 ^ 9 ∧
     0 ≤ (250000000 : Int) ∧ (250000000 : Int) < 10 ^ 9 ∧
     0 ≤ (250000000 : Int) ∧ (250000000 : Int) < 10 ^ 9) ∧
    ((∀ r ∈ store_candle_in_db (fun _ => 0) []
        ⟨CTime.dt 0, ⟨150, 250000000⟩, ⟨150, 250000000⟩,
          ⟨150, 250000000⟩, ⟨150, 250000000⟩⟩ "T",
        r ∈ ([] : List Row) ∨
          (r.open_ = ((150 : Int) : ℚ) + ((250000000 : Int) : ℚ) / 10 ^ 9 ∧
           r.high = ((150 : Int) : ℚ) + ((250000000 : Int) : ℚ) / 10 ^ 9 ∧
           r.low = ((150 : Int) : ℚ) + ((250000000 : Int) : ℚ) / 10 ^ 9 ∧
           r.close = ((150 : Int) : ℚ) + ((250000000 : Int) : ℚ) / 10 ^ 9)) ∧
      decodePrice ⟨150, 250000000⟩ = (150.25 : ℚ)) :=
  ⟨by decide,
    c7_price_reconstruction (fun _ => 0)
      ⟨CTime.dt 0, ⟨150, 250000000⟩, ⟨150, 250000000⟩,
        ⟨150, 250000000⟩, ⟨150, 250000000⟩⟩ "T" [] (by decide)⟩

theorem mem_storeCandles {iso : String → Int} {cs : List Candle}
    {ticker : String} {tbl : List Row} {r : Row}
    (h : r ∈ storeCandles iso cs ticker tbl) :
    r ∈ tbl ∨ r.ticker = ticker := by
  induction cs generalizing tbl with
  | nil => exact Or.inl h
  | cons c cs ih =>
      have h1 : r ∈ storeCandles iso cs ticker (store_candle_in_db iso tbl c ticker) := h
      rcases ih h1 with h2 | h2
      · rcases mem_store_candle_in_db h2 with h3 | ⟨b, _, h3⟩
        · exact Or.inl h3
        · exact Or.inr (by rw [h3]; rfl)
      · exact Or.inr h2

theorem mem_storeCandlesHourly {iso : String → Int} {cs : List Candle}
    {figi ticker : String} {tbl : List Row} {r : Row}
    (h : r ∈ storeCandlesHourly iso cs figi ticker tbl) :
    r ∈ tbl ∨ r.ticker = ticker := by
  induction cs generalizing tbl with
  | nil => exact Or.inl h
  | cons c cs ih =>
      have h1 : r ∈ storeCandlesHourly iso cs figi ticker
          (store_candle_in_db_hourly iso tbl c figi ticker) := h
      rcases ih h1 with h2 | h2
      · rcases mem_store_candle_in_db_hourly h2 with h3 | ⟨b, _, h3⟩
        · exact Or.inl h3
        · exact Or.inr (by rw [h3]; rfl)
      · exact Or.inr h2

theorem mem_step_table {iso : String → Int} {fetch : Nat → FetchResult}
    {ticker : String} {tbl : List Row} {r : Row}
    (h : r ∈ (fetch_and_store_step iso fetch ticker tbl).table) :
    r ∈ tbl ∨ r.ticker = ticker := by
  unfold fetch_and_store_step at h
  cases h0 : fetch 0 <;> simp only [h0] at h
  case ok cs => exact mem_storeCandles h
  case throttled meta =>
      cases hr : resetSeconds meta <;> simp only [hr] at h
      case none => exact Or.inl h
      case some reset =>
          cases h1 : fetch 1 <;> simp only [h1] at h
          case ok cs => exact mem_storeCandles h
          case throttled m2 => exact Or.inl h
          case requestErrorOther => exact Or.inl h
          case otherError => exact Or.inl h
  case requestErrorOther => exact Or.inl h
  case otherError => exact Or.inl h

theorem mem_step_hourly_table {iso : String → Int} {fetch : Nat → FetchResult}
    {figi ticker : String} {tbl : List Row} {r : Row}
    (h : r ∈ (fetch_and_store_step_hourly iso fetch figi ticker tbl).table) :
    r ∈ tbl ∨ r.ticker = ticker := by
  unfold fetch_and_store_step_hourly at h
  cases h0 : fetch 0 <;> simp only [h0] at h
  case ok cs => exact mem_storeCandlesHourly h
  case throttled meta =>
      cases hr : resetSeconds meta <;> simp only [hr] at h
      case none => exact Or.inl h
      case some reset => exact Or.inl h
  case requestErrorOther => exact Or.inl h
  case otherError => exact Or.inl h

theorem mem_run_table {iso : String → Int} {fetch : String → Nat → FetchResult}
    {tickers : List String} {tbl : List Row} {r : Row}
    (h : r ∈ (fetch_and_store iso fetch tickers tbl).2) :
    r ∈ tbl ∨ ∃ t ∈ tickers, r.ticker = t := by
  induction tickers generalizing tbl with
  | nil => exact Or.inl h
  | cons t rest ih =>
      simp only [fetch_and_store] at h
      by_cases he : (fetch_and_store_step iso (fetch t) t tbl).escalated = true
      · rw [if_pos he] at h
        rcases mem_step_table h with h1 | h1
        · exact Or.inl h1
        · exact Or.inr ⟨t, List.mem_cons_self t rest, h1⟩
      · rw [if_neg he] at h
        rcases ih h with h1 | h1
        · rcases mem_step_table h1 with h2 | h2
          · exact Or.inl h2
          · exact Or.inr ⟨t, List.mem_cons_self t rest, h2⟩
        · rcases h1 with ⟨u, hu, hru⟩
          exact Or.inr ⟨u, List.mem_cons_of_mem t hu, hru⟩

theorem mem_run_hourly_table {iso : String → Int}
    {fetch : String → Nat → FetchResult} {stocks : List (String × String)}
    {tbl : List Row} {r : Row}
    (h : r ∈ (fetch_and_store_hourly iso fetch stocks tbl).2) :
    r ∈ tbl ∨ ∃ p ∈ stocks, r.ticker = p.2 := by
  induction stocks generalizing tbl with
  | nil => exact Or.inl h
  | cons p rest ih =>
      simp only [fetch_and_store_hourly] at h
      by_cases he :
          (fetch_and_store_step_hourly iso (fetch p.1) p.1 p.2 tbl).escalated = true
      · rw [if_pos he] at h
        rcases mem_step_hourly_table h with h1 | h1
        · exact Or.inl h1
        · exact Or.inr ⟨p, List.mem_cons_self p rest, h1⟩
      · rw [if_neg he] at h
        rcases ih h with h1 | h1
        · rcases mem_step_hourly_table h1 with h2 | h2
          · exact Or.inl h2
          · exact Or.inr ⟨p, List.mem_cons_self p rest, h2⟩
        · rcases h1 with ⟨q, hq, hrq⟩
          exact Or.inr ⟨q, List.mem_cons_of_mem p hq, hrq⟩

theorem apiCall_step_events {iso : String → Int} {fetch : Nat → FetchResult}
    {ticker : String} {tbl : List Row} {x : String}
    (h : Ev.apiCall x ∈ (fetch_and_store_step iso fetch ticker tbl).events) :
    x = ticker := by
  unfold fetch_and_store_step at h
  cases h0 : fetch 0 <;> simp only [h0] at h
  case ok cs => simp at h; exact h
  case throttled meta =>
      cases hr : resetSeconds meta <;> simp only [hr] at h
      case none => simp at h; exact h
      case some reset =>
          cases h1 : fetch 1 <;> simp only [h1] at h <;> (simp at h; tauto)
  case requestErrorOther => simp at h; exact h
  case otherError => simp at h; exact h

theorem apiCall_step_hourly_events {iso : String → Int}
    {fetch : Nat → FetchResult} {figi ticker : String} {tbl : List Row}
    {x : String}
    (h : Ev.apiCall x ∈ (fetch_and_store_step_hourly iso fetch figi ticker tbl).events) :
    x = figi := by
  unfold fetch_and_store_step_hourly at h
  cases h0 : fetch 0 <;> simp only [h0] at h
  case ok cs => simp at h; exact h
  case throttled meta =>
      cases hr : resetSeconds meta <;> simp only [hr] at h
      case none => simp at h; exact h
      case some reset => simp at h; exact h
  case requestErrorOther => simp at h; exact h
  case otherError => simp at h; exact h

theorem apiCall_run_events {iso : String → Int}
    {fetch : String → Nat → FetchResult} {tickers : List String}
    {tbl : List Row} {x : String}
    (h : Ev.apiCall x ∈ (fetch_and_store iso fetch tickers tbl).1) :
    x ∈ tickers := by
  induction tickers generalizing tbl with
  | nil => simp [fetch_and_store] at h
  | cons t rest ih =>
      simp only [fetch_and_store] at h
      by_cases he : (fetch_and_store_step iso (fetch t) t tbl).escalated = true
      · rw [if_pos he] at h
        rw [apiCall_step_events h]
        exact List.mem_cons_self t rest
      · rw [if_neg he] at h
        rcases List.mem_append.mp h with h1 | h1
        · rw [apiCall_step_events h1]
          exact List.mem_cons_self t rest
        · exact List.mem_cons_of_mem t (ih h1)

theorem apiCall_run_hourly_events {iso : String → Int}
    {fetch : String → Nat → FetchResult} {stocks : List (String × String)}
    {tbl : List Row} {x : String}
    (h : Ev.apiCall x ∈ (fetch_and_store_hourly iso fetch stocks tbl).1) :
    x ∈ stocks.map Prod.fst := by
  induction stocks generalizing tbl with
  | nil => simp [fetch_and_store_hourly] at h
  | cons p rest ih =>
      simp only [fetch_and_store_hourly] at h
      by_cases he :
          (fetch_and_store_step_hourly iso (fetch p.1) p.1 p.2 tbl).escalated = true
      · rw [if_pos he] at h
        rw [List.map_cons, apiCall_step_hourly_events h]
        exact List.mem_cons_self p.1 (rest.map Prod.fst)
      · rw [if_neg he] at h
        rcases List.mem_append.mp h with h1 | h1
        · rw [List.map_cons, apiCall_step_hourly_events h1]
          exact List.mem_cons_self p.1 (rest.map Prod.fst)
        · rw [List.map_cons]
          exact List.mem_cons_of_mem p.1 (ih h1)

/-- C2: the claim that both pipelines retry a throttled request exactly
once is contradicted by the hourly code, which only holds a TODO comment
where the retry should be. At a first attempt throttled with reset
hint 5, the hourly step sleeps 5 seconds and issues no second call
(exactly one API call), while the 10-minute step does sleep and retry
once. -/
theorem c2_hourly_throttle_no_retry :
    fetch_and_store_step_hourly (fun _ => 0)
        (fun _ => FetchResult.throttled (some "5")) "F" "T" [] =
      ⟨[Ev.apiCall "F", Ev.sleepMs 5000], [], false⟩ ∧
    (fetch_and_store_step (fun _ => 0)
        (fun _ => FetchResult.throttled (some "5")) "F" []).events =
      [Ev.apiCall "F", Ev.sleepMs 5000, Ev.apiCall "F"] :=
  ⟨rfl, rfl⟩

/-- C3 counterexample: at 03:00 local on a Monday the hourly scheduler
does invoke the regular-segment run, although 3 is outside the
10-to-23 hour window, so the claimed gate does not hold in both
pipelines. -/
theorem c3_claim_false_at_hourly_weekday_night :
    Target.classic_hourly ∈ scheduler_step_hourly 0 3 ∧ ¬ (10 ≤ 3 ∧ 3 < 23) := by
  decide

/-- C3 amended: in the 10-minute pipeline the regular run is gated on
weekday and hour in [10, 23) and the weekend run on hour alone, and at
03:00 it invokes nothing; in the hourly pipeline the weekend run has the
same hour gate but the regular run is gated on weekday only, with no
hour window. -/
theorem c3_gating_amended (w h : Nat) :
    (Target.classic10 ∈ scheduler_step w h ↔ w < 5 ∧ 10 ≤ h ∧ h < 23) ∧
    (Target.weekend10 ∈ scheduler_step w h ↔ 10 ≤ h ∧ h < 23) ∧
    (Target.classic_hourly ∈ scheduler_step_hourly w h ↔ w < 5) ∧
    (Target.weekend_hourly ∈ scheduler_step_hourly w h ↔ 10 ≤ h ∧ h < 23) ∧
    scheduler_step w 3 = [] := by
  unfold scheduler_step scheduler_step_hourly
  refine ⟨?_, ?_, ?_, ?_, ?_⟩ <;> split_ifs <;> simp_all

/-- C3 amended witness: the gate equivalences at Sunday 03:00. -/
theorem c3_gating_amended_witness :
    (Target.classic10 ∈ scheduler_step 6 3 ↔ 6 < 5 ∧ 10 ≤ 3 ∧ 3 < 23) ∧
    (Target.weekend10 ∈ scheduler_step 6 3 ↔ 10 ≤ 3 ∧ 3 < 23) ∧
    (Target.classic_hourly ∈ scheduler_step_hourly 6 3 ↔ 6 < 5) ∧
    (Target.weekend_hourly ∈ scheduler_step_hourly 6 3 ↔ 10 ≤ 3 ∧ 3 < 23) ∧
    scheduler_step 6 3 = [] :=
  c3_gating_amended 6 3

/-- C4 counterexample: on a catalog holding one instrument in
BREAK_IN_TRADING status the two variants select different classic
instrument sets, so they are not the same algorithm modulo granularity,
lookback, table and gating parameters. -/
theorem c4_claim_false_on_break_in_trading :
    (get_stock_lists
        [⟨"F1", "T1", TradingStatus.break_in_trading, none⟩]).1 = ["F1"] ∧
    (get_stock_lists_hourly
        [⟨"F1", "T1", TradingStatus.break_in_trading, none⟩]).1 = [] :=
  ⟨rfl, rfl⟩

/-- C4 amended: the two variants share the weekend-selection rule for
every instrument, but their regular-segment allow-lists differ: they
agree on regular-segment membership exactly for instruments whose
status is neither BREAK_IN_TRADING nor NOT_AVAILABLE_FOR_TRADING. -/
theorem c4_selection_amended (i : Instrument) :
    weekendPred10 i = weekendPredHourly i ∧
    (classicPred10 i = classicPredHourly i ↔
      (i.trading_status ≠ TradingStatus.break_in_trading ∧
       i.trading_status ≠ TradingStatus.not_available_for_trading)) := by
  refine ⟨rfl, ?_⟩
  cases h : i.trading_status <;>
    simp [classicPred10, classicPredHourly, h]

/-- C4 amended witness: the selection agreement at a concrete
NORMAL_TRADING instrument. -/
theorem c4_selection_amended_witness :
    weekendPred10 ⟨"F", "T", TradingStatus.normal_trading, none⟩ =
      weekendPredHourly ⟨"F", "T", TradingStatus.normal_trading, none⟩ ∧
    (classicPred10 ⟨"F", "T", TradingStatus.normal_trading, none⟩ =
        classicPredHourly ⟨"F", "T", TradingStatus.normal_trading, none⟩ ↔
      ((⟨"F", "T", TradingStatus.normal_trading, none⟩ : Instrument).trading_status ≠
          TradingStatus.break_in_trading ∧
       (⟨"F", "T", TradingStatus.normal_trading, none⟩ : Instrument).trading_status ≠
          TradingStatus.not_available_for_trading)) :=
  c4_selection_amended ⟨"F", "T", TradingStatus.normal_trading, none⟩

/-- C8 counterexample: on a failed fetch attempt no 100ms pause is
executed at all — the `time.sleep(0.1)` sits inside the try block after
the store loop, so the error paths bypass it in both pipelines. -/
theorem c8_claim_false_on_failed_fetch :
    (fetch_and_store_step (fun _ => 0)
        (fun _ => FetchResult.requestErrorOther) "F" []).events = [Ev.apiCall "F"] ∧
    Ev.sleepMs 100 ∉ (fetch_and_store_step (fun _ => 0)
        (fun _ => FetchResult.requestErrorOther) "F" []).events ∧
    Ev.sleepMs 100 ∉ (fetch_and_store_step_hourly (fun _ => 0)
        (fun _ => FetchResult.requestErrorOther) "F" "T" []).events := by
  refine ⟨rfl, ?_, ?_⟩ <;> decide

/-- C8 amended: the fixed 100ms pause is executed exactly when the
first fetch attempt succeeds (after its candles are stored); failed
attempts, including the whole throttle-retry path, run without it, in
both pipelines. -/
theorem c8_pause_amended (iso : String → Int) (fetch : Nat → FetchResult)
    (ticker figi tick : String) (tbl : List Row) :
    (Ev.sleepMs 100 ∈ (fetch_and_store_step iso fetch ticker tbl).events ↔
      ∃ cs, fetch 0 = FetchResult.ok cs) ∧
    (Ev.sleepMs 100 ∈ (fetch_and_store_step_hourly iso fetch figi tick tbl).events ↔
      ∃ cs, fetch 0 = FetchResult.ok cs) := by
  constructor
  · cases h0 : fetch 0 with
    | ok cs => simp [fetch_and_store_step, h0]
    | throttled meta =>
        cases hr : resetSeconds meta with
        | none => simp [fetch_and_store_step, h0, hr]
        | some reset =>
            cases h1 : fetch 1 <;>
              simp [fetch_and_store_step, h0, hr, h1] <;> omega
    | requestErrorOther => simp [fetch_and_store_step, h0]
    | otherError => simp [fetch_and_store_step, h0]
  · cases h0 : fetch 0 with
    | ok cs => simp [fetch_and_store_step_hourly, h0]
    | throttled meta =>
        cases hr : resetSeconds meta with
        | none => simp [fetch_and_store_step_hourly, h0, hr]
        | some reset =>
            simp [fetch_and_store_step_hourly, h0, hr]
            omega
    | requestErrorOther => simp [fetch_and_store_step_hourly, h0]
    | otherError => simp [fetch_and_store_step_hourly, h0]

/-- C8 amended witness: the pause criterion at a successful concrete
fetch. -/
theorem c8_pause_amended_witness :
    (Ev.sleepMs 100 ∈ (fetch_and_store_step (fun _ => 0)
        (fun _ => FetchResult.ok []) "F" []).events ↔
      ∃ cs, (fun _ : Nat => FetchResult.ok ([] : List Candle)) 0 =
        FetchResult.ok cs) ∧
    (Ev.sleepMs 100 ∈ (fetch_and_store_step_hourly (fun _ => 0)
        (fun _ => FetchResult.ok []) "F" "T" []).events ↔
      ∃ cs, (fun _ : Nat => FetchResult.ok ([] : List Candle)) 0 =
        FetchResult.ok cs) :=
  c8_pause_amended (fun _ => 0) (fun _ => FetchResult.ok []) "F" "F" "T" []

/-- C10: in the 10-minute pipeline, a throttling response whose
`ratelimit_reset` metadata is not parseable as an integer makes `int()`
raise inside the throttling handler; only the run-level handler catches
it, so the run stops after that instrument — the remaining tickers get
no API call — while `fetch_and_store` still returns normally, so the
scheduler loop continues. -/
theorem c10_bad_reset_metadata_aborts_run (iso : String → Int)
    (fetch : String → Nat → FetchResult) (t s : String)
    (post : List String) (tbl : List Row)
    (h1 : fetch t 0 = FetchResult.throttled (some s))
    (h2 : pyInt s = none) :
    fetch_and_store iso fetch (t :: post) tbl = ([Ev.apiCall t], tbl) := by
  have hstep : fetch_and_store_step iso (fetch t) t tbl =
      ⟨[Ev.apiCall t], tbl, true⟩ := by
    simp [fetch_and_store_step, h1, resetSeconds, h2]
  simp [fetch_and_store, hstep]

/-- C10 witness: a two-ticker run whose first fetch is throttled with
the non-numeric reset hint abc. -/
theorem c10_witness :
    ((fun _ : String => fun _ : Nat => FetchResult.throttled (some "abc"))
        "X" 0 = FetchResult.throttled (some "abc") ∧
      pyInt "abc" = none) ∧
    fetch_and_store (fun _ => 0)
        (fun _ _ => FetchResult.throttled (some "abc")) ["X", "Y"] [] =
      ([Ev.apiCall "X"], []) :=
  ⟨⟨rfl, by decide⟩,
    c10_bad_reset_metadata_aborts_run (fun _ => 0)
      (fun _ _ => FetchResult.throttled (some "abc")) "X" "abc" ["Y"] []
      rfl (by decide)⟩

/-- C5: for an instrument of the catalog (with no other catalog entry
sharing its figi): NORMAL_TRADING status puts it in the regular segment
of both pipelines; weekend-segment membership holds exactly when the
weekend flag is present and set, an absent flag counting as false; and
an instrument passing neither the status allow-list nor the flag is in
no segment and its figi is never fetched by any run over the selected
lists. -/
theorem c5_segment_classification (insts : List Instrument) (i : Instrument)
    (hmem : i ∈ insts)
    (huniq : ∀ j ∈ insts, j.figi = i.figi → j = i) :
    (i.trading_status = TradingStatus.normal_trading →
        i.figi ∈ (get_stock_lists insts).1 ∧
        (i.figi, i.ticker) ∈ (get_stock_lists_hourly insts).1) ∧
    (i.figi ∈ (get_stock_lists insts).2 ↔ i.weekend_flag.getD false = true) ∧
    ((i.figi, i.ticker) ∈ (get_stock_lists_hourly insts).2 ↔
        i.weekend_flag.getD false = true) ∧
    (classicPred10 i = false → classicPredHourly i = false →
        i.weekend_flag.getD false = false →
        i.figi ∉ (get_stock_lists insts).1 ∧
        i.figi ∉ (get_stock_lists insts).2 ∧
        (i.figi, i.ticker) ∉ (get_stock_lists_hourly insts).1 ∧
        (i.figi, i.ticker) ∉ (get_stock_lists_hourly insts).2 ∧
        (∀ (iso : String → Int) (fetch : String → Nat → FetchResult)
            (tbl : List Row),
          Ev.apiCall i.figi ∉
            (fetch_and_store iso fetch (get_stock_lists insts).1 tbl).1 ∧
          Ev.apiCall i.figi ∉
            (fetch_and_store iso fetch (get_stock_lists insts).2 tbl).1 ∧
          Ev.apiCall i.figi ∉
            (fetch_and_store_hourly iso fetch (get_stock_lists_hourly insts).1 tbl).1 ∧
          Ev.apiCall i.figi ∉
            (fetch_and_store_hourly iso fetch (get_stock_lists_hourly insts).2 tbl).1)) := by
  have hmapmem : ∀ (p : Instrument → Bool),
      i.figi ∈ (insts.filter p).map Instrument.figi → p i = true := by
    intro p hp
    rcases List.mem_map.mp hp with ⟨j, hj, hfig⟩
    rcases List.mem_filter.mp hj with ⟨hjmem, hjp⟩
    rwa [huniq j hjmem hfig] at hjp
  have hmapintro : ∀ (p : Instrument → Bool), p i = true →
      i.figi ∈ (insts.filter p).map Instrument.figi := by
    intro p hp
    exact List.mem_map.mpr ⟨i, List.mem_filter.mpr ⟨hmem, hp⟩, rfl⟩
  have hpairmem : ∀ (p : Instrument → Bool),
      (i.figi, i.ticker) ∈ (insts.filter p).map (fun j => (j.figi, j.ticker)) →
        p i = true := by
    intro p hp
    rcases List.mem_map.mp hp with ⟨j, hj, hpair⟩
    rcases List.mem_filter.mp hj with ⟨hjmem, hjp⟩
    have hfig : j.figi = i.figi := congrArg Prod.fst hpair
    rwa [huniq j hjmem hfig] at hjp
  have hpairintro : ∀ (p : Instrument → Bool), p i = true →
      (i.figi, i.ticker) ∈ (insts.filter p).map (fun j => (j.figi, j.ticker)) := by
    intro p hp
    exact List.mem_map.mpr ⟨i, List.mem_filter.mpr ⟨hmem, hp⟩, rfl⟩
  have hfstmem : ∀ (p : Instrument → Bool),
      i.figi ∈ ((insts.filter p).map (fun j => (j.figi, j.ticker))).map Prod.fst →
        p i = true := by
    intro p hp
    rw [List.map_map] at hp
    rcases List.mem_map.mp hp with ⟨j, hj, hfig⟩
    rcases List.mem_filter.mp hj with ⟨hjmem, hjp⟩
    rwa [huniq j hjmem hfig] at hjp
  refine ⟨?_, ⟨?_, ?_⟩, ⟨?_, ?_⟩, ?_⟩
  · intro hst
    exact ⟨hmapintro classicPred10 (by simp [classicPred10, hst]),
      hpairintro classicPredHourly (by simp [classicPredHourly, hst])⟩
  · exact fun hp => hmapmem weekendPred10 hp
  · exact fun hflag => hmapintro weekendPred10 hflag
  · exact fun hp => hpairmem weekendPredHourly hp
  · exact fun hflag => hpairintro weekendPredHourly hflag
  · intro hc10 hcH hflag
    have h1 : i.figi ∉ (get_stock_lists insts).1 := by
      intro h
      have hx := hmapmem classicPred10 h
      rw [hc10] at hx
      exact absurd hx (by decide)
    have h2 : i.figi ∉ (get_stock_lists insts).2 := by
      intro h
      have hx := hmapmem weekendPred10 h
      rw [show weekendPred10 i = false from hflag] at hx
      exact absurd hx (by decide)
    have h3 : (i.figi, i.ticker) ∉ (get_stock_lists_hourly insts).1 := by
      intro h
      have hx := hpairmem classicPredHourly h
      rw [hcH] at hx
      exact absurd hx (by decide)
    have h4 : (i.figi, i.ticker) ∉ (get_stock_lists_hourly insts).2 := by
      intro h
      have hx := hpairmem weekendPredHourly h
      rw [show weekendPredHourly i = false from hflag] at hx
      exact absurd hx (by decide)
    refine ⟨h1, h2, h3, h4, ?_⟩
    intro iso fetch tbl
    refine ⟨?_, ?_, ?_, ?_⟩
    · exact fun h => h1 (apiCall_run_events h)
    · exact fun h => h2 (apiCall_run_events h)
    · intro h
      have hx := hfstmem classicPredHourly (apiCall_run_hourly_events h)
      rw [hcH] at hx
      exact absurd hx (by decide)
    · intro h
      have hx := hfstmem weekendPredHourly (apiCall_run_hourly_events h)
      rw [show weekendPredHourly i = false from hflag] at hx
      exact absurd hx (by decide)

/-- C5 witness: a two-instrument catalog in which the first instrument
has a non-tradeable status and no weekend flag and the second is a
normally trading weekend-flagged instrument. -/
theorem c5_witness :
    ((⟨"FA", "TA", TradingStatus.other_status, none⟩ : Instrument) ∈
        ([⟨"FA", "TA", TradingStatus.other_status, none⟩,
          ⟨"FB", "TB", TradingStatus.normal_trading, some true⟩] :
          List Instrument) ∧
      ∀ j ∈ ([⟨"FA", "TA", TradingStatus.other_status, none⟩,
          ⟨"FB", "TB", TradingStatus.normal_trading, some true⟩] :
          List Instrument),
        j.figi = (⟨"FA", "TA", TradingStatus.other_status, none⟩ : Instrument).figi →
        j = ⟨"FA", "TA", TradingStatus.other_status, none⟩) ∧
    ((⟨"FA", "TA", TradingStatus.other_status, none⟩ : Instrument).trading_status =
          TradingStatus.normal_trading →
        (⟨"FA", "TA", TradingStatus.other_status, none⟩ : Instrument).figi ∈
          (get_stock_lists [⟨"FA", "TA", TradingStatus.other_status, none⟩,
            ⟨"FB", "TB", TradingStatus.normal_trading, some true⟩]).1 ∧
        ((⟨"FA", "TA", TradingStatus.other_status, none⟩ : Instrument).figi,
          (⟨"FA", "TA", TradingStatus.other_status, none⟩ : Instrument).ticker) ∈
          (get_stock_lists_hourly [⟨"FA", "TA", TradingStatus.other_status, none⟩,
            ⟨"FB", "TB", TradingStatus.normal_trading, some true⟩]).1) ∧
    ((⟨"FA", "TA", TradingStatus.other_status, none⟩ : Instrument).figi ∈
        (get_stock_lists [⟨"FA", "TA", TradingStatus.other_status, none⟩,
          ⟨"FB", "TB", TradingStatus.normal_trading, some true⟩]).2 ↔
      (⟨"FA", "TA", TradingStatus.other_status, none⟩ : Instrument).weekend_flag.getD
        false = true) ∧
    (((⟨"FA", "TA", TradingStatus.other_status, none⟩ : Instrument).figi,
        (⟨"FA", "TA", TradingStatus.other_status, none⟩ : Instrument).ticker) ∈
        (get_stock_lists_hourly [⟨"FA", "TA", TradingStatus.other_status, none⟩,
          ⟨"FB", "TB", TradingStatus.normal_trading, some true⟩]).2 ↔
      (⟨"FA", "TA", TradingStatus.other_status, none⟩ : Instrument).weekend_flag.getD
        false = true) ∧
    (classicPred10 ⟨"FA", "TA", TradingStatus.other_status, none⟩ = false →
      classicPredHourly ⟨"FA", "TA", TradingStatus.other_status, none⟩ = false →
      (⟨"FA", "TA", TradingStatus.other_status, none⟩ : Instrument).weekend_flag.getD
        false = false →
      (⟨"FA", "TA", TradingStatus.other_status, none⟩ : Instrument).figi ∉
        (get_stock_lists [⟨"FA", "TA", TradingStatus.other_status, none⟩,
          ⟨"FB", "TB", TradingStatus.normal_trading, some true⟩]).1 ∧
      (⟨"FA", "TA", TradingStatus.other_status, none⟩ : Instrument).figi ∉
        (get_stock_lists [⟨"FA", "TA", TradingStatus.other_status, none⟩,
          ⟨"FB", "TB", TradingStatus.normal_trading, some true⟩]).2 ∧
      ((⟨"FA", "TA", TradingStatus.other_status, none⟩ : Instrument).figi,
        (⟨"FA", "TA", TradingStatus.other_status, none⟩ : Instrument).ticker) ∉
        (get_stock_lists_hourly [⟨"FA", "TA", TradingStatus.other_status, none⟩,
          ⟨"FB", "TB", TradingStatus.normal_trading, some true⟩]).1 ∧
      ((⟨"FA", "TA", TradingStatus.other_status, none⟩ : Instrument).figi,
        (⟨"FA", "TA", TradingStatus.other_status, none⟩ : Instrument).ticker) ∉
        (get_stock_lists_hourly [⟨"FA", "TA", TradingStatus.other_status, none⟩,
          ⟨"FB", "TB", TradingStatus.normal_trading, some true⟩]).2 ∧
      (∀ (iso : String → Int) (fetch : String → Nat → FetchResult)
          (tbl : List Row),
        Ev.apiCall (⟨"FA", "TA", TradingStatus.other_status, none⟩ : Instrument).figi ∉
          (fetch_and_store iso fetch
            (get_stock_lists [⟨"FA", "TA", TradingStatus.other_status, none⟩,
              ⟨"FB", "TB", TradingStatus.normal_trading, some true⟩]).1 tbl).1 ∧
        Ev.apiCall (⟨"FA", "TA", TradingStatus.other_status, none⟩ : Instrument).figi ∉
          (fetch_and_store iso fetch
            (get_stock_lists [⟨"FA", "TA", TradingStatus.other_status, none⟩,
              ⟨"FB", "TB", TradingStatus.normal_trading, some true⟩]).2 tbl).1 ∧
        Ev.apiCall (⟨"FA", "TA", TradingStatus.other_status, none⟩ : Instrument).figi ∉
          (fetch_and_store_hourly iso fetch
            (get_stock_lists_hourly [⟨"FA", "TA", TradingStatus.other_status, none⟩,
              ⟨"FB", "TB", TradingStatus.normal_trading, some true⟩]).1 tbl).1 ∧
        Ev.apiCall (⟨"FA", "TA", TradingStatus.other_status, none⟩ : Instrument).figi ∉
          (fetch_and_store_hourly iso fetch
            (get_stock_lists_hourly [⟨"FA", "TA", TradingStatus.other_status, none⟩,
              ⟨"FB", "TB", TradingStatus.normal_trading, some true⟩]).2 tbl).1)) :=
  ⟨⟨by decide, by decide⟩,
    c5_segment_classification
      [⟨"FA", "TA", TradingStatus.other_status, none⟩,
        ⟨"FB", "TB", TradingStatus.normal_trading, some true⟩]
      ⟨"FA", "TA", TradingStatus.other_status, none⟩ (by decide) (by decide)⟩

/-- C9: rows written by the 10-minute classic run carry in their ticker
column the figi of the selected instrument, while rows written by the
hourly classic run carry the display ticker, so the two pipelines key
the same instrument by different strings whenever its figi and display
ticker differ. -/
theorem c9_ticker_column_figi_vs_display (iso : String → Int)
    (insts : List Instrument) (fetch fetchH : String → Nat → FetchResult)
    (tbl : List Row) (r10 rH : Row)
    (h10 : r10 ∈ (fetch_and_store iso fetch (get_stock_lists insts).1 tbl).2)
    (hn10 : r10 ∉ tbl)
    (hH : rH ∈ (fetch_and_store_hourly iso fetchH
        (get_stock_lists_hourly insts).1 tbl).2)
    (hnH : rH ∉ tbl) :
    (∃ i ∈ insts, classicPred10 i = true ∧ r10.ticker = i.figi) ∧
    (∃ i ∈ insts, classicPredHourly i = true ∧ rH.ticker = i.ticker) := by
  constructor
  · rcases mem_run_table h10 with h | ⟨t, ht, hrt⟩
    · exact absurd h hn10
    · rcases List.mem_map.mp ht with ⟨j, hj, hfig⟩
      rcases List.mem_filter.mp hj with ⟨hjm, hjp⟩
      exact ⟨j, hjm, hjp, hrt.trans hfig.symm⟩
  · rcases mem_run_hourly_table hH with h | ⟨p, hp, hrp⟩
    · exact absurd h hnH
    · rcases List.mem_map.mp hp with ⟨j, hj, hpair⟩
      rcases List.mem_filter.mp hj with ⟨hjm, hjp⟩
      exact ⟨j, hjm, hjp, hrp.trans (congrArg Prod.snd hpair.symm)⟩

/-- C9 witness: a one-instrument catalog with figi F and display ticker
T, one fetched candle, both runs on an empty table. -/
theorem c9_witness :
    ((mkRow "F" 0 600 ⟨CTime.dt 0, ⟨1, 0⟩, ⟨1, 0⟩, ⟨1, 0⟩, ⟨1, 0⟩⟩ ∈
        (fetch_and_store (fun _ => 0)
          (fun _ _ => FetchResult.ok [⟨CTime.dt 0, ⟨1, 0⟩, ⟨1, 0⟩, ⟨1, 0⟩, ⟨1, 0⟩⟩])
          (get_stock_lists [⟨"F", "T", TradingStatus.normal_trading, none⟩]).1 []).2 ∧
      mkRow "F" 0 600 ⟨CTime.dt 0, ⟨1, 0⟩, ⟨1, 0⟩, ⟨1, 0⟩, ⟨1, 0⟩⟩ ∉ ([] : List Row) ∧
      mkRow "T" 0 3600 ⟨CTime.dt 0, ⟨1, 0⟩, ⟨1, 0⟩, ⟨1, 0⟩, ⟨1, 0⟩⟩ ∈
        (fetch_and_store_hourly (fun _ => 0)
          (fun _ _ => FetchResult.ok [⟨CTime.dt 0, ⟨1, 0⟩, ⟨1, 0⟩, ⟨1, 0⟩, ⟨1, 0⟩⟩])
          (get_stock_lists_hourly [⟨"F", "T", TradingStatus.normal_trading, none⟩]).1 []).2 ∧
      mkRow "T" 0 3600 ⟨CTime.dt 0, ⟨1, 0⟩, ⟨1, 0⟩, ⟨1, 0⟩, ⟨1, 0⟩⟩ ∉ ([] : List Row))) ∧
    ((∃ i ∈ ([⟨"F", "T", TradingStatus.normal_trading, none⟩] : List Instrument),
        classicPred10 i = true ∧
        (mkRow "F" 0 600 ⟨CTime.dt 0, ⟨1, 0⟩, ⟨1, 0⟩, ⟨1, 0⟩, ⟨1, 0⟩⟩).ticker = i.figi) ∧
      (∃ i ∈ ([⟨"F", "T", TradingStatus.normal_trading, none⟩] : List Instrument),
        classicPredHourly i = true ∧
        (mkRow "T" 0 3600 ⟨CTime.dt 0, ⟨1, 0⟩, ⟨1, 0⟩, ⟨1, 0⟩, ⟨1, 0⟩⟩).ticker = i.ticker)) :=
  ⟨⟨List.mem_singleton.mpr rfl, by simp, List.mem_singleton.mpr rfl, by simp⟩,
    c9_ticker_column_figi_vs_display (fun _ => 0)
      [⟨"F", "T", TradingStatus.normal_trading, none⟩]
      (fun _ _ => FetchResult.ok [⟨CTime.dt 0, ⟨1, 0⟩, ⟨1, 0⟩, ⟨1, 0⟩, ⟨1, 0⟩⟩])
      (fun _ _ => FetchResult.ok [⟨CTime.dt 0, ⟨1, 0⟩, ⟨1, 0⟩, ⟨1, 0⟩, ⟨1, 0⟩⟩])
      [] _ _ (List.mem_singleton.mpr rfl) (by simp)
      (List.mem_singleton.mpr rfl) (by simp)⟩

end StockParser
